import Mathlib

/-!
Verification development for the Syn-Syu core (synsyu_core).

The definitions below are a shallow embedding of the Rust sources:
  - src/synsyu_core/src/manifest.rs  (resolve_package, build_manifest)
  - src/synsyu_core/src/space.rs     (assess_default_paths)
  - src/synsyu_core/src/plan.rs      (PlanCommand::execute disk-buffer check,
                                      truncate_hash)
  - src/synsyu_core/src/fwupd.rs     (collect_fwupd_updates, select_checksum,
                                      join_trust, truncate_hash)

Modelling conventions:
  - Rust u64 values are Nat with the saturating operations made explicit as
    clamps at U64_MAX (the sources use saturating_add / saturating_mul).
  - The external `vercmp` delegate (pacman::compare_versions) is a parameter
    of type Oracle; its failures are Except.error values, mirroring the
    Result-returning Rust function.
  - Rust's `?` propagation is unrolled into explicit matches on Except.
  - BTreeMap<String, ManifestEntry> is an association list kept sorted by
    key; insertion mirrors map insertion (replace on equal key).
  - Filesystem probing in space.rs is abstracted to the list of (path, query
    outcome) pairs for the candidates that exist; the selection loop over
    that list is embedded verbatim.
  - A Rust panic is modelled as Option.none (used for the byte-slicing in
    truncate_hash).
-/

deriving instance DecidableEq for Except

namespace SynSyu

/-- Largest value of a Rust u64; saturating arithmetic clamps here. -/
def U64_MAX : Nat := 2 ^ 64 - 1

/-- Rust `u64::saturating_add`. -/
def satAdd (a b : Nat) : Nat := min (a + b) U64_MAX

/-- Rust `u64::saturating_mul`. -/
def satMul (a b : Nat) : Nat := min (a * b) U64_MAX

/-- Rust `Option::or` specialised to the uses in the sources. -/
def optOr {α : Type} (a b : Option α) : Option α :=
  match a with
  | some x => some x
  | none => b

/-- Modelled from the spec: VersionInfo (src/synsyu_core/src/package_info.rs is
not among the provided sources) — "version string plus optional download-size
and installed-size bytes from an upstream source"; the field set matches every
use in manifest.rs and pacman.rs. -/
structure VersionInfo where
  version : String
  download_size : Option Nat
  installed_size : Option Nat
deriving DecidableEq

/-- InstalledPackage from pacman.rs. -/
structure InstalledPackage where
  name : String
  version : String
  repository : Option String
  installed_size : Option Nat
  install_date : Option String
  validated_by : Option String
  package_hash : Option String
deriving DecidableEq

/-- PackageSource from manifest.rs. -/
inductive PackageSource
  | pacman
  | aur
  | «local»
  | unknown
deriving DecidableEq

/-- ManifestEntry from manifest.rs. -/
structure ManifestEntry where
  installed_version : String
  version_repo : Option String
  version_aur : Option String
  newer_version : String
  source : PackageSource
  update_available : Bool
  notes : Option String
  download_size_repo : Option Nat
  installed_size_repo : Option Nat
  download_size_aur : Option Nat
  installed_size_aur : Option Nat
  download_size_selected : Option Nat
  installed_size_selected : Option Nat
  install_size_estimate : Option Nat
  build_size_estimate : Option Nat
  transient_size_estimate : Option Nat
deriving DecidableEq

/-- ManifestMetadata from manifest.rs. -/
structure ManifestMetadata where
  generated_at : String
  generated_by : String
  total_packages : Nat
  repo_candidates : Nat
  aur_candidates : Nat
  updates_available : Nat
  download_size_total : Nat
  build_size_total : Nat
  install_size_total : Nat
  transient_size_total : Nat
  min_free_bytes : Nat
  required_space_total : Nat
  available_space_bytes : Nat
  space_checked_path : String
deriving DecidableEq

/-- ManifestDocument from manifest.rs; the BTreeMap is the sorted
association list in `packages`. -/
structure ManifestDocument where
  metadata : ManifestMetadata
  packages : List (String × ManifestEntry)
deriving DecidableEq

/-- The Version Oracle: pacman.rs `compare_versions`, an external delegate
returning an ordering or an error (spawn failure, non-zero exit, or
unparseable output). Error payloads are abstracted to their message. -/
def Oracle : Type := String → String → Except String Ordering

/-- The `repo_cmp` / `aur_cmp` prologue of resolve_package: compare the
installed version against an optional source version, propagating oracle
failure. -/
def optCmp (vercmp : Oracle) (installed : String) :
    Option VersionInfo → Except String (Option Ordering)
  | some info =>
    match vercmp installed info.version with
    | .ok o => .ok (some o)
    | .error e => .error e
  | none => .ok none

/-- Source classification when neither upstream has info (manifest.rs lines
227-233): LocallyBuilt when the origin tag marks it local, else Unknown. -/
def classify_none_source (package : InstalledPackage) : PackageSource :=
  if package.repository = some "local" then .local else .unknown

/-- The big `match (repo_info, repo_cmp, aur_info, aur_cmp)` of
resolve_package (manifest.rs lines 198-243), producing
(source, target_version, update_available, notes). The final arm mirrors the
Rust `_` wildcard arm. -/
def classify (vercmp : Oracle) (package : InstalledPackage)
    (repo_info : Option VersionInfo) (repoCmp : Option Ordering)
    (aur_info : Option VersionInfo) (aurCmp : Option Ordering) :
    Except String (PackageSource × String × Bool × Option String) :=
  match repo_info, repoCmp, aur_info, aurCmp with
  | some repo_v, some rc, none, _ =>
    .ok (.pacman, repo_v.version, rc == .lt, none)
  | none, _, some aur_v, some ac =>
    .ok (.aur, aur_v.version, ac == .lt, none)
  | some repo_v, some rc, some aur_v, some ac =>
    match vercmp repo_v.version aur_v.version with
    | .error e => .error e
    | .ok .gt =>
      .ok (.pacman, repo_v.version, rc == .lt,
        if ac == .gt then some "AUR ahead of repo, but repo chosen per policy" else none)
    | .ok .eq =>
      .ok (.pacman, repo_v.version, rc == .lt,
        if ac == .gt then some "AUR ahead of repo, but repo chosen per policy" else none)
    | .ok .lt =>
      .ok (.aur, aur_v.version, ac == .lt, none)
  | none, _, none, _ =>
    .ok (classify_none_source package, package.version, false, none)
  | some repo_v, none, _, _ =>
    .ok (.pacman, repo_v.version, false, none)
  | some repo_v, some _, some _, none =>
    .ok (.pacman, repo_v.version, false, none)
  | none, _, some aur_v, none =>
    .ok (.aur, aur_v.version, false, none)

/-- The `(download_selected, installed_selected)` match of resolve_package
(manifest.rs lines 249-257). -/
def selected_sizes (source : PackageSource)
    (download_repo installed_repo download_aur installed_aur : Option Nat) :
    Option Nat × Option Nat :=
  match source with
  | .pacman => (download_repo, installed_repo)
  | .aur => (download_aur, installed_aur)
  | .local => (none, none)
  | .unknown => (optOr download_repo download_aur, optOr installed_repo installed_aur)

/-- The `install_estimate` match of resolve_package (manifest.rs lines
259-264). -/
def install_estimate_of (installed_selected download_selected : Option Nat)
    (source : PackageSource) : Option Nat :=
  match installed_selected, download_selected, source with
  | some value, _, _ => some value
  | none, some download, .aur => some (satMul download 2)
  | none, some download, _ => some download
  | _, _, _ => none

/-- The `build_estimate` match of resolve_package (manifest.rs lines
266-273): for Pacman, saturating triple then `triple / 2 + triple % 2`. -/
def build_estimate_of (source : PackageSource)
    (install_estimate download_selected : Option Nat) : Option Nat :=
  match source, install_estimate, download_selected with
  | .pacman, some install, _ =>
    some (satMul install 3 / 2 + satMul install 3 % 2)
  | .aur, _, some download => some (satMul download 8)
  | _, _, _ => none

/-- The `transient_estimate` block of resolve_package (manifest.rs lines
275-285). -/
def transient_estimate_of (download_selected build_estimate install_estimate :
    Option Nat) : Option Nat :=
  let total := satAdd (satAdd (download_selected.getD 0) (build_estimate.getD 0))
    (install_estimate.getD 0)
  if total = 0 then none else some total

/-- Construction of the ManifestEntry record at the end of resolve_package
(manifest.rs lines 245-304), given the classified
(source, target_version, update_available, notes). -/
def mk_entry (package : InstalledPackage) (repo_info aur_info : Option VersionInfo)
    (stun : PackageSource × String × Bool × Option String) : ManifestEntry :=
  let download_repo := repo_info.bind VersionInfo.download_size
  let installed_repo := repo_info.bind VersionInfo.installed_size
  let download_aur := aur_info.bind VersionInfo.download_size
  let installed_aur := aur_info.bind VersionInfo.installed_size
  let sel := selected_sizes stun.1 download_repo installed_repo download_aur installed_aur
  let install_estimate := install_estimate_of sel.2 sel.1 stun.1
  let build_estimate := build_estimate_of stun.1 install_estimate sel.1
  { installed_version := package.version
    version_repo := repo_info.map VersionInfo.version
    version_aur := aur_info.map VersionInfo.version
    newer_version := stun.2.1
    source := stun.1
    update_available := stun.2.2.1
    notes := stun.2.2.2
    download_size_repo := download_repo
    installed_size_repo := installed_repo
    download_size_aur := download_aur
    installed_size_aur := installed_aur
    download_size_selected := sel.1
    installed_size_selected := sel.2
    install_size_estimate := install_estimate
    build_size_estimate := build_estimate
    transient_size_estimate := transient_estimate_of sel.1 build_estimate install_estimate }

/-- resolve_package (manifest.rs lines 176-305), with the Rust `?`
propagation unrolled into matches. -/
def resolve_package (vercmp : Oracle) (package : InstalledPackage)
    (repo_info aur_info : Option VersionInfo) : Except String ManifestEntry :=
  match optCmp vercmp package.version repo_info with
  | .error e => .error e
  | .ok repoCmp =>
    match optCmp vercmp package.version aur_info with
    | .error e => .error e
    | .ok aurCmp =>
      match classify vercmp package repo_info repoCmp aur_info aurCmp with
      | .error e => .error e
      | .ok stun => .ok (mk_entry package repo_info aur_info stun)

/-- The mutable accumulators of build_manifest's loop (manifest.rs lines
106-113). -/
structure BuildState where
  entries : List (String × ManifestEntry)
  repo_candidates : Nat
  aur_candidates : Nat
  updates_available : Nat
  download_total : Nat
  build_total : Nat
  install_total : Nat
  transient_total : Nat
deriving DecidableEq

/-- Initial accumulator state of build_manifest. -/
def emptyBuildState : BuildState :=
  { entries := [], repo_candidates := 0, aur_candidates := 0, updates_available := 0,
    download_total := 0, build_total := 0, install_total := 0, transient_total := 0 }

/-- BTreeMap::insert on the sorted association list: replaces on an equal
key, otherwise inserts in lexicographic key position. -/
def insertEntry (k : String) (v : ManifestEntry) :
    List (String × ManifestEntry) → List (String × ManifestEntry)
  | [] => [(k, v)]
  | (k0, v0) :: rest =>
    if k < k0 then (k, v) :: (k0, v0) :: rest
    else if k = k0 then (k, v) :: rest
    else (k0, v0) :: insertEntry k v rest

/-- `if let Some(size) = ... { total = total.saturating_add(size) }`
(manifest.rs lines 129-140). -/
def addSized (total : Nat) (o : Option Nat) : Nat :=
  match o with
  | some size => satAdd total size
  | none => total

/-- One iteration of build_manifest's `for package in packages` loop
(manifest.rs lines 115-151). -/
def build_step (vercmp : Oracle) (repo_versions aur_versions : String → Option VersionInfo)
    (st : BuildState) (package : InstalledPackage) : Except String BuildState :=
  let repo_info := repo_versions package.name
  let aur_info := aur_versions package.name
  let st1 := { st with
    repo_candidates := if repo_info.isSome then st.repo_candidates + 1 else st.repo_candidates
    aur_candidates := if aur_info.isSome then st.aur_candidates + 1 else st.aur_candidates }
  match resolve_package vercmp package repo_info aur_info with
  | .error e => .error e
  | .ok resolved =>
    let st2 :=
      if resolved.update_available then
        { st1 with
          updates_available := st1.updates_available + 1
          download_total := addSized st1.download_total resolved.download_size_selected
          build_total := addSized st1.build_total resolved.build_size_estimate
          install_total := addSized st1.install_total resolved.install_size_estimate
          transient_total := addSized st1.transient_total resolved.transient_size_estimate }
      else st1
    .ok { st2 with entries := insertEntry package.name resolved st2.entries }

/-- build_manifest's loop over the installed packages; the `?` on
resolve_package aborts the whole loop at the first error. -/
def build_loop (vercmp : Oracle) (repo_versions aur_versions : String → Option VersionInfo) :
    List InstalledPackage → BuildState → Except String BuildState
  | [], st => .ok st
  | p :: ps, st =>
    match build_step vercmp repo_versions aur_versions st p with
    | .error e => .error e
    | .ok st1 => build_loop vercmp repo_versions aur_versions ps st1

/-- build_manifest (manifest.rs lines 99-174). `Utc::now()` is passed in as
the `now` parameter; the HashMap arguments are modelled by their lookup
functions (the code only calls `.get`). -/
def build_manifest (vercmp : Oracle) (packages : List InstalledPackage)
    (repo_versions aur_versions : String → Option VersionInfo)
    (min_free_bytes : Nat) (now : String) : Except String ManifestDocument :=
  match build_loop vercmp repo_versions aur_versions packages emptyBuildState with
  | .error e => .error e
  | .ok st =>
    .ok {
      metadata := {
        generated_at := now
        generated_by := "synsyu_core"
        total_packages := packages.length
        repo_candidates := st.repo_candidates
        aur_candidates := st.aur_candidates
        updates_available := st.updates_available
        download_size_total := st.download_total
        build_size_total := st.build_total
        install_size_total := st.install_total
        transient_size_total := st.transient_total
        min_free_bytes := min_free_bytes
        required_space_total := satAdd st.transient_total min_free_bytes
        available_space_bytes := 0
        space_checked_path := "" }
      packages := st.entries }

/-- SpaceReport from space.rs. -/
structure SpaceReport where
  checked_path : String
  available_bytes : Nat
deriving DecidableEq

/-- The candidate loop of assess_default_paths (space.rs lines 50-71),
abstracted over the (path, free-bytes query outcome) pairs for the existing
candidates. On a successful query the held report is replaced only when the
new candidate has strictly fewer available bytes; on a failed query the
error is returned immediately when nothing is held yet, otherwise the
candidate is skipped. -/
def assess_loop : Option SpaceReport → List (String × Except String Nat) →
    Except String (Option SpaceReport)
  | report, [] => .ok report
  | report, (path, outcome) :: rest =>
    match outcome with
    | .ok bytes =>
      match report with
      | some current =>
        if bytes ≥ current.available_bytes then assess_loop (some current) rest
        else assess_loop (some { checked_path := path, available_bytes := bytes }) rest
      | none => assess_loop (some { checked_path := path, available_bytes := bytes }) rest
    | .error err =>
      match report with
      | none => .error err
      | some current => assess_loop (some current) rest

/-- assess_default_paths (space.rs lines 42-74): run the loop from an empty
report and fail if nothing was held at the end. -/
def assess_default_paths (candidates : List (String × Except String Nat)) :
    Except String SpaceReport :=
  match assess_loop none candidates with
  | .error e => .error e
  | .ok (some report) => .ok report
  | .ok none => .error "Unable to determine available disk space"

/-- SpacePolicy from config.rs. -/
inductive SpacePolicy
  | warn
  | enforce
deriving DecidableEq

/-- The Display impl for SpacePolicy (config.rs lines 324-331). -/
def SpacePolicy.render : SpacePolicy → String
  | .warn => "warn"
  | .enforce => "enforce"

/-- The `space` JSON map built by PlanCommand::execute, as a record of the
keys the code may insert (plan.rs lines 195-233). -/
structure PlanSpaceMeta where
  policy : String
  min_free_bytes : Nat
  available_bytes : Option Nat
  checked_path : Option String
  status : Option String
  warning : Option String
deriving DecidableEq

/-- Result of the disk-buffer check inside PlanCommand::execute: the space
metadata, the error list after the check, and the `space_blocked` flag. -/
structure PlanSpaceOutcome where
  space_meta : PlanSpaceMeta
  errors : List String
  space_blocked : Bool
deriving DecidableEq

/-- The `format!("disk: available {} below configured buffer {} on {}")`
message of plan.rs lines 209-214. -/
def disk_low_message (available min_free : Nat) (path : String) : String :=
  "disk: available " ++ toString available ++ " below configured buffer " ++
    toString min_free ++ " on " ++ path

/-- The disk-buffer check of PlanCommand::execute (plan.rs lines 192-233),
abstracted over the outcome of space::assess_default_paths and the error
list accumulated by the per-source collectors. -/
def plan_space_check (policy : SpacePolicy) (min_free : Nat)
    (assessment : Except String SpaceReport) (errors : List String) : PlanSpaceOutcome :=
  let base : PlanSpaceMeta :=
    { policy := policy.render, min_free_bytes := min_free,
      available_bytes := none, checked_path := none, status := none, warning := none }
  match assessment with
  | .ok report =>
    let meta := { base with
      available_bytes := some report.available_bytes
      checked_path := some report.checked_path }
    if min_free > 0 ∧ report.available_bytes < min_free then
      let msg := disk_low_message report.available_bytes min_free report.checked_path
      match policy with
      | .warn =>
        { space_meta := { meta with status := some "low", warning := some msg }
          errors := errors, space_blocked := false }
      | .enforce =>
        { space_meta := { meta with status := some "low" }
          errors := errors ++ [msg], space_blocked := true }
    else
      { space_meta := { meta with status := some "ok" }
        errors := errors, space_blocked := false }
  | .error err =>
    { space_meta := { base with status := some "unknown" }
      errors := errors ++ ["disk: unable to assess free space (" ++ err ++ ")"]
      space_blocked := false }

/-- FwupdUpdateRelease as deserialized in fwupd.rs / plan.rs. -/
structure FwupdUpdateRelease where
  version : Option String
  summary : Option String
  description : Option String
  checksum : Option String
  checksums : Option (List String)
  checksums_lower : Option (List String)
  trust_flags : Option (List String)
  trust_flags_lower : Option (List String)
  signed : Option Bool
deriving DecidableEq

/-- FwupdUpdateDevice as deserialized in fwupd.rs / plan.rs. -/
structure FwupdUpdateDevice where
  device_id : Option String
  id : Option String
  name : Option String
  installed : Option String
  releases : Option (List FwupdUpdateRelease)
  releases_lower : Option (List FwupdUpdateRelease)
deriving DecidableEq

/-- FwupdUpdates: the top-level parsed `fwupdmgr get-updates --json`
document. -/
structure FwupdUpdates where
  devices : List FwupdUpdateDevice
  devices_lower : List FwupdUpdateDevice
deriving DecidableEq

/-- FwupdUpdate from fwupd.rs (the plan.rs variant emits the same fields as
a JSON object). -/
structure FwupdUpdate where
  device : String
  name : String
  installed : String
  available : String
  summary : String
  available_hash : String
  trust : String
deriving DecidableEq

/-- `list.into_iter().find(|s| !s.is_empty())`. -/
def firstNonEmpty : List String → Option String
  | [] => none
  | s :: rest => if s ≠ "" then some s else firstNonEmpty rest

/-- The checksums_lower fallback tail of select_checksum. -/
def select_checksum_lower (checksums_lower : Option (List String)) : String :=
  match checksums_lower with
  | some list =>
    match firstNonEmpty list with
    | some first => first
    | none => ""
  | none => ""

/-- select_checksum (fwupd.rs lines 323-342 / plan.rs lines 588-607). -/
def select_checksum (checksum : Option String)
    (checksums checksums_lower : Option (List String)) : String :=
  match checksum with
  | some cs => cs
  | none =>
    match checksums with
    | some list =>
      match firstNonEmpty list with
      | some first => first
      | none => select_checksum_lower checksums_lower
    | none => select_checksum_lower checksums_lower

/-- join_trust (fwupd.rs lines 353-361 / plan.rs lines 609-617). -/
def join_trust (primary alt : Option (List String)) : Option String :=
  match optOr primary alt with
  | none => none
  | some list =>
    let filtered := list.filter (fun s => s ≠ "")
    if filtered = [] then none else some (String.intercalate "," filtered)

/-- Rust `str::trim` on the character list of a string (the hash inputs at
issue contain only ASCII whitespace, for which Char.isWhitespace agrees with
Rust's char::is_whitespace). -/
def trimChars (cs : List Char) : List Char :=
  ((cs.dropWhile Char.isWhitespace).reverse.dropWhile Char.isWhitespace).reverse

/-- UTF-8 byte length of a character list — Rust `str::len`. -/
def utf8Len (cs : List Char) : Nat := (cs.map Char.utf8Size).sum

/-- Take exactly `n` UTF-8 bytes worth of leading characters — Rust
`&s[..n]`, which panics (here: none) when byte position `n` is not a
character boundary or past the end. -/
def takeBytes : Nat → List Char → Option (List Char)
  | 0, _ => some []
  | _ + 1, [] => none
  | n + 1, c :: cs =>
    if c.utf8Size ≤ n + 1 then
      match takeBytes (n + 1 - c.utf8Size) cs with
      | some pre => some (c :: pre)
      | none => none
    else none

/-- truncate_hash (plan.rs lines 579-586 / fwupd.rs lines 344-351): trim,
then return the input when its byte length is at most 16, else the 16-byte
prefix `&trimmed[..16]`; that byte slice panics (none) when byte 16 falls
inside a multi-byte character. -/
def truncate_hash (value : String) : Option String :=
  let trimmed := trimChars value.data
  if utf8Len trimmed ≤ 16 then some (String.mk trimmed)
  else
    match takeBytes 16 trimmed with
    | some pre => some (String.mk pre)
    | none => none

/-- The release loop body of collect_fwupd_updates (fwupd.rs lines 239-271 /
plan.rs lines 537-567) for one device; none models a panic escaping from
truncate_hash. -/
def collect_releases (dev_id name installed : String) :
    List FwupdUpdateRelease → Option (List FwupdUpdate)
  | [] => some []
  | rel :: rest =>
    let available := rel.version.getD ""
    if available = "" ∨ (installed ≠ "" ∧ installed = available) then
      collect_releases dev_id name installed rest
    else
      let summary := (optOr rel.summary rel.description).getD ""
      match truncate_hash (select_checksum rel.checksum rel.checksums rel.checksums_lower) with
      | none => none
      | some checksum =>
        let trust := (optOr (join_trust rel.trust_flags rel.trust_flags_lower)
          (rel.signed.map (fun s => if s then "signed" else "unsigned"))).getD ""
        match collect_releases dev_id name installed rest with
        | none => none
        | some tail =>
          some (FwupdUpdate.mk dev_id name installed available summary checksum trust :: tail)

/-- The device loop of collect_fwupd_updates. -/
def collect_devices : List FwupdUpdateDevice → Option (List FwupdUpdate)
  | [] => some []
  | dev :: rest =>
    let dev_id := (optOr dev.device_id dev.id).getD "unknown"
    let name := dev.name.getD dev_id
    let installed := dev.installed.getD ""
    let releases := (optOr dev.releases dev.releases_lower).getD []
    match collect_releases dev_id name installed releases with
    | none => none
    | some us =>
      match collect_devices rest with
      | none => none
      | some tail => some (us ++ tail)

/-- collect_fwupd_updates (fwupd.rs lines 210-275 / plan.rs lines 493-570),
abstracted over the parsed JSON document: pick the upper-case `Devices` list
when non-empty, else the lower-case one, and collect the filtered update
records. -/
def collect_fwupd_updates (parsed : FwupdUpdates) : Option (List FwupdUpdate) :=
  let devices := if parsed.devices ≠ [] then parsed.devices else parsed.devices_lower
  collect_devices devices

/-- A Version Oracle is total when the external command always yields an
ordering. -/
def OracleTotal (vercmp : Oracle) : Prop := ∀ a b, ∃ o, vercmp a b = .ok o

/-- A concrete total Oracle used for witnesses and counterexamples: version
strings are ordered by length, which agrees with numeric `vercmp` on the
literals "1" < "22" < "333" used below. -/
def length_oracle : Oracle := fun a b => .ok (compare a.length b.length)

/-- A concrete Oracle that fails whenever the malformed version string
"bad" is involved, mirroring a vercmp failure, and orders by length
otherwise. -/
def failing_oracle : Oracle := fun a b =>
  if a = "bad" ∨ b = "bad" then .error "vercmp failure" else .ok (compare a.length b.length)

/-- Placeholder entry for the (never taken under a successful run) error
branch of resolve_or_default. -/
def default_entry : ManifestEntry :=
  { installed_version := "", version_repo := none, version_aur := none,
    newer_version := "", source := .unknown, update_available := false, notes := none,
    download_size_repo := none, installed_size_repo := none, download_size_aur := none,
    installed_size_aur := none, download_size_selected := none,
    installed_size_selected := none, install_size_estimate := none,
    build_size_estimate := none, transient_size_estimate := none }

/-- The entry build_manifest stores for a package, as a function of the
package alone (meaningful whenever resolution succeeds). -/
def resolve_or_default (vercmp : Oracle) (repo_versions aur_versions : String → Option VersionInfo)
    (p : InstalledPackage) : ManifestEntry :=
  match resolve_package vercmp p (repo_versions p.name) (aur_versions p.name) with
  | .ok e => e
  | .error _ => default_entry

/-- The (name, entry) pair build_manifest inserts for a package. -/
def entry_pair (vercmp : Oracle) (repo_versions aur_versions : String → Option VersionInfo)
    (p : InstalledPackage) : String × ManifestEntry :=
  (p.name, resolve_or_default vercmp repo_versions aur_versions p)

/-- The entries accumulator of build_manifest's loop, viewed in isolation
(the view is justified against build_loop in the lemmas below). -/
def build_entries_pure (vercmp : Oracle) (repo_versions aur_versions : String → Option VersionInfo) :
    List InstalledPackage → List (String × ManifestEntry) → List (String × ManifestEntry)
  | [], es => es
  | p :: ps, es =>
    build_entries_pure vercmp repo_versions aur_versions ps
      (insertEntry p.name (resolve_or_default vercmp repo_versions aur_versions p) es)

/-- Erase the generation timestamp of a manifest document (the one field
that legitimately differs between two runs on identical inputs). -/
def strip_timestamp (doc : ManifestDocument) : ManifestDocument :=
  { doc with metadata := { doc.metadata with generated_at := "" } }

/-- A package's contribution to one of the rollup totals: the size datum
when an update is available, 0 otherwise (manifest.rs lines 127-141). -/
def update_contrib (vercmp : Oracle) (repo_versions aur_versions : String → Option VersionInfo)
    (field : ManifestEntry → Option Nat) (p : InstalledPackage) : Nat :=
  let e := resolve_or_default vercmp repo_versions aur_versions p
  if e.update_available then (field e).getD 0 else 0

/-- An optional size fits in a u64. -/
def obnd (o : Option Nat) : Prop := ∀ x, o = some x → x ≤ U64_MAX

/-- Key ordering on map entries. -/
def entryKeyLt (a b : String × ManifestEntry) : Prop := a.1 < b.1

/-- Sample installed package for concrete instantiations. -/
def mkPkg (n v : String) : InstalledPackage :=
  { name := n, version := v, repository := some "pacman", installed_size := none,
    install_date := none, validated_by := none, package_hash := none }

/-- Sample version info for concrete instantiations. -/
def mkInfo (v : String) (d i : Option Nat) : VersionInfo :=
  { version := v, download_size := d, installed_size := i }

theorem resolve_package_eq_ok {vercmp : Oracle} {p : InstalledPackage}
    {ri ai : Option VersionInfo} {rc ac : Option Ordering}
    {stun : PackageSource × String × Bool × Option String}
    (h1 : optCmp vercmp p.version ri = .ok rc)
    (h2 : optCmp vercmp p.version ai = .ok ac)
    (h3 : classify vercmp p ri rc ai ac = .ok stun) :
    resolve_package vercmp p ri ai = .ok (mk_entry p ri ai stun) := by
  unfold resolve_package
  simp only [h1, h2, h3]

theorem resolve_package_ok_elim {vercmp : Oracle} {p : InstalledPackage}
    {ri ai : Option VersionInfo} {e : ManifestEntry}
    (h : resolve_package vercmp p ri ai = .ok e) :
    ∃ rc ac stun,
      optCmp vercmp p.version ri = .ok rc ∧
      optCmp vercmp p.version ai = .ok ac ∧
      classify vercmp p ri rc ai ac = .ok stun ∧
      e = mk_entry p ri ai stun := by
  unfold resolve_package at h
  split at h
  · cases h
  · rename_i rc h1
    split at h
    · cases h
    · rename_i ac h2
      split at h
      · cases h
      · rename_i stun h3
        exact ⟨rc, ac, stun, h1, h2, h3, (Except.ok.inj h).symm⟩

theorem mk_entry_source (p : InstalledPackage) (ri ai : Option VersionInfo)
    (stun : PackageSource × String × Bool × Option String) :
    (mk_entry p ri ai stun).source = stun.1 := rfl

theorem mk_entry_selected (p : InstalledPackage) (ri ai : Option VersionInfo)
    (stun : PackageSource × String × Bool × Option String) :
    ((mk_entry p ri ai stun).download_size_selected,
      (mk_entry p ri ai stun).installed_size_selected) =
    selected_sizes stun.1 (ri.bind VersionInfo.download_size)
      (ri.bind VersionInfo.installed_size) (ai.bind VersionInfo.download_size)
      (ai.bind VersionInfo.installed_size) := rfl

theorem mk_entry_install (p : InstalledPackage) (ri ai : Option VersionInfo)
    (stun : PackageSource × String × Bool × Option String) :
    (mk_entry p ri ai stun).install_size_estimate =
    install_estimate_of (mk_entry p ri ai stun).installed_size_selected
      (mk_entry p ri ai stun).download_size_selected stun.1 := rfl

theorem mk_entry_build (p : InstalledPackage) (ri ai : Option VersionInfo)
    (stun : PackageSource × String × Bool × Option String) :
    (mk_entry p ri ai stun).build_size_estimate =
    build_estimate_of stun.1 (mk_entry p ri ai stun).install_size_estimate
      (mk_entry p ri ai stun).download_size_selected := rfl

theorem mk_entry_transient (p : InstalledPackage) (ri ai : Option VersionInfo)
    (stun : PackageSource × String × Bool × Option String) :
    (mk_entry p ri ai stun).transient_size_estimate =
    transient_estimate_of (mk_entry p ri ai stun).download_size_selected
      (mk_entry p ri ai stun).build_size_estimate
      (mk_entry p ri ai stun).install_size_estimate := rfl

/-- C3 counterexample: a package resolved to RepositoryBinary whose
repository VersionInfo has no download size while the archive VersionInfo
advertises 1000 bytes reports no selected download size at all — the
claimed fallback to the other source's datum does not happen for a
Pacman-resolved package. -/
theorem claim_C3_counterexample :
    (resolve_package length_oracle (mkPkg "pkg" "1")
        (some (mkInfo "22" none none)) (some (mkInfo "22" (some 1000) none))).map
      (fun e => (e.source, e.download_size_selected)) =
      .ok (PackageSource.pacman, (none : Option Nat)) ∧
    (none : Option Nat) ≠ some 1000 := by decide

/-- C3 amended: download_size_selected / installed_size_selected are taken
from the chosen source's VersionInfo with no cross-source fallback when the
source is Pacman or Aur; Local entries get none; only Unknown-source entries
fall back (repository datum first, then archive). -/
theorem claim_C3_amended (vercmp : Oracle) (p : InstalledPackage)
    (ri ai : Option VersionInfo) (e : ManifestEntry)
    (h : resolve_package vercmp p ri ai = .ok e) :
    (e.source = .pacman →
      e.download_size_selected = ri.bind VersionInfo.download_size ∧
      e.installed_size_selected = ri.bind VersionInfo.installed_size) ∧
    (e.source = .aur →
      e.download_size_selected = ai.bind VersionInfo.download_size ∧
      e.installed_size_selected = ai.bind VersionInfo.installed_size) ∧
    (e.source = .local →
      e.download_size_selected = none ∧ e.installed_size_selected = none) ∧
    (e.source = .unknown →
      e.download_size_selected =
        optOr (ri.bind VersionInfo.download_size) (ai.bind VersionInfo.download_size) ∧
      e.installed_size_selected =
        optOr (ri.bind VersionInfo.installed_size) (ai.bind VersionInfo.installed_size)) := by
  obtain ⟨rc, ac, stun, h1, h2, h3, he⟩ := resolve_package_ok_elim h
  subst he
  obtain ⟨s, t, u, n⟩ := stun
  cases s <;> simp [mk_entry, selected_sizes]

/-- C3 witness: the amended statement applied to a concrete Unknown-source
package. -/
theorem claim_C3_witness :
    resolve_package length_oracle (mkPkg "pkg" "1") none none =
      .ok (mk_entry (mkPkg "pkg" "1") none none (.unknown, "1", false, none)) ∧
    ((mk_entry (mkPkg "pkg" "1") none none (.unknown, "1", false, none)).source = .unknown →
      (mk_entry (mkPkg "pkg" "1") none none (.unknown, "1", false, none)).download_size_selected =
        optOr ((none : Option VersionInfo).bind VersionInfo.download_size)
          ((none : Option VersionInfo).bind VersionInfo.download_size) ∧
      (mk_entry (mkPkg "pkg" "1") none none (.unknown, "1", false, none)).installed_size_selected =
        optOr ((none : Option VersionInfo).bind VersionInfo.installed_size)
          ((none : Option VersionInfo).bind VersionInfo.installed_size)) :=
  ⟨by decide,
    (claim_C3_amended length_oracle (mkPkg "pkg" "1") none none
      (mk_entry (mkPkg "pkg" "1") none none (.unknown, "1", false, none)) (by decide)).2.2.2⟩

/-- C4 counterexample: with installed "333", repository "22", archive "1"
the Oracle orders the repository version strictly greater than the archive
version, yet the advisory note is attached — so the note is not attached
when and only when the archive version is strictly greater, as the claim
describes; the code's actual trigger is installed strictly greater than the
archive version. -/
theorem claim_C4_counterexample :
    (resolve_package length_oracle (mkPkg "pkg" "333")
        (some (mkInfo "22" none none)) (some (mkInfo "1" none none))).map
      (fun e => (e.source, e.notes)) =
      .ok (PackageSource.pacman, some "AUR ahead of repo, but repo chosen per policy") ∧
    length_oracle "22" "1" = .ok .gt := by decide

/-- C4 amended: when both sources have version info and the Oracle orders
the repository version greater than or equal to the archive version
(including the exact tie), the resolved source is Pacman (never Aur), the
target version is the repository version, and update_available is decided
by comparing installed against the repository version; in this branch the
advisory note "AUR ahead of repo, but repo chosen per policy" is attached
exactly when the Oracle orders the installed version strictly greater than
the archive version, and attaching it does not change update_available. -/
theorem claim_C4_amended (vercmp : Oracle) (p : InstalledPackage) (rv av : VersionInfo)
    (o1 o2 o3 : Ordering)
    (h1 : vercmp p.version rv.version = .ok o1)
    (h2 : vercmp p.version av.version = .ok o2)
    (h3 : vercmp rv.version av.version = .ok o3)
    (hge : o3 = .gt ∨ o3 = .eq) :
    ∃ e, resolve_package vercmp p (some rv) (some av) = .ok e ∧
      e.source = .pacman ∧
      e.newer_version = rv.version ∧
      e.update_available = (o1 == .lt) ∧
      e.notes = (if o2 == .gt then some "AUR ahead of repo, but repo chosen per policy"
        else none) := by
  have hc1 : optCmp vercmp p.version (some rv) = .ok (some o1) := by
    unfold optCmp; simp only [h1]
  have hc2 : optCmp vercmp p.version (some av) = .ok (some o2) := by
    unfold optCmp; simp only [h2]
  have hc3 : classify vercmp p (some rv) (some o1) (some av) (some o2) =
      .ok (.pacman, rv.version, o1 == .lt,
        if o2 == .gt then some "AUR ahead of repo, but repo chosen per policy" else none) := by
    unfold classify
    rcases hge with h | h <;> subst h <;> simp only [h3]
  exact ⟨_, resolve_package_eq_ok hc1 hc2 hc3, rfl, rfl, rfl, rfl⟩

/-- C4 witness: the amended statement applied at the exact tie
(repository version equal to archive version). -/
theorem claim_C4_witness :
    ∃ e, resolve_package length_oracle (mkPkg "pkg" "1")
        (some (mkInfo "22" none none)) (some (mkInfo "22" none none)) = .ok e ∧
      e.source = .pacman ∧
      e.newer_version = "22" ∧
      e.update_available = (Ordering.lt == Ordering.lt) ∧
      e.notes = (if Ordering.lt == Ordering.gt
        then some "AUR ahead of repo, but repo chosen per policy" else none) :=
  claim_C4_amended length_oracle (mkPkg "pkg" "1") (mkInfo "22" none none)
    (mkInfo "22" none none) .lt .lt .eq rfl rfl rfl (Or.inr rfl)

/-- C5: a CommunityArchive (Aur) package with download size 1000 and no
installed-size telemetry gets install_estimate 2000, build_estimate 8000
and transient_estimate 11000; and in general any Aur-resolved entry with
unknown selected installed size and known selected download size d gets
install_estimate 2 × d (u64-saturated; exactly 2 × d whenever that product
fits in a u64). -/
theorem claim_C5 :
    ((resolve_package length_oracle (mkPkg "pkg" "1") none
        (some (mkInfo "22" (some 1000) none))).map
      (fun e => (e.install_size_estimate, e.build_size_estimate, e.transient_size_estimate)) =
      .ok (some 2000, some 8000, some 11000)) ∧
    (∀ (vercmp : Oracle) (p : InstalledPackage) (ri ai : Option VersionInfo)
      (e : ManifestEntry) (d : Nat),
      resolve_package vercmp p ri ai = .ok e →
      e.source = .aur →
      e.installed_size_selected = none →
      e.download_size_selected = some d →
      e.install_size_estimate = some (satMul d 2) ∧
      (2 * d ≤ U64_MAX → e.install_size_estimate = some (2 * d))) := by
  constructor
  · decide
  · intro vercmp p ri ai e d h hs hi hd
    obtain ⟨rc, ac, stun, h1, h2, h3, he⟩ := resolve_package_ok_elim h
    subst he
    rw [mk_entry_source] at hs
    have hest : (mk_entry p ri ai stun).install_size_estimate =
        install_estimate_of none (some d) .aur := by
      rw [mk_entry_install, hi, hd, hs]
    have hval : install_estimate_of none (some d) PackageSource.aur = some (satMul d 2) := rfl
    refine ⟨hest.trans hval, fun hb => (hest.trans hval).trans ?_⟩
    have : satMul d 2 = 2 * d := by
      unfold satMul U64_MAX at hb ⊢
      omega
    rw [this]

/-- C5 witness: the general clause applied to a concrete Aur-only package
with download size 3. -/
theorem claim_C5_witness :
    resolve_package length_oracle (mkPkg "q" "1") none (some (mkInfo "22" (some 3) none)) =
      .ok (mk_entry (mkPkg "q" "1") none (some (mkInfo "22" (some 3) none))
        (.aur, "22", true, none)) ∧
    (mk_entry (mkPkg "q" "1") none (some (mkInfo "22" (some 3) none))
        (.aur, "22", true, none)).install_size_estimate = some (2 * 3) :=
  ⟨by decide,
    ((claim_C5.2 length_oracle (mkPkg "q" "1") none (some (mkInfo "22" (some 3) none))
      (mk_entry (mkPkg "q" "1") none (some (mkInfo "22" (some 3) none))
        (.aur, "22", true, none)) 3 (by decide) rfl rfl rfl).2 (by decide))⟩

/-- C2 counterexample: with configured buffer 500, available 900 and a
manifest transient_size_total of 600 the claim's required_total is
600 + 500 = 1100 > 900, so the claim demands a blocked outcome under
"enforce"; the embedded gate — which, like PlanCommand::execute, never
reads transient_size_total and compares available bytes against the
configured buffer alone — does not block and appends no error. -/
theorem claim_C2_counterexample :
    (plan_space_check .enforce 500
      (.ok { checked_path := "/", available_bytes := 900 }) []).space_blocked = false ∧
    (plan_space_check .enforce 500
      (.ok { checked_path := "/", available_bytes := 900 }) []).errors = [] ∧
    900 < 600 + 500 := by decide

/-- C2 amended: the plan's capacity gate compares available bytes against
the configured minimum free buffer alone (required_total = min_free_bytes;
the manifest's transient_size_total is not consulted), and only when the
buffer is positive. When available < min_free_bytes: under "enforce" the
outcome is blocked and the shortfall message (quoting the available and
required byte counts) is appended to the error list; under "warn" the same
inputs put the shortfall message in the space metadata's warning field and
the outcome is not blocked. -/
theorem claim_C2_amended (min_free available : Nat) (path : String) (errors : List String)
    (hpos : 0 < min_free) (hlow : available < min_free) :
    (plan_space_check .enforce min_free
      (.ok { checked_path := path, available_bytes := available }) errors).space_blocked = true ∧
    (plan_space_check .enforce min_free
      (.ok { checked_path := path, available_bytes := available }) errors).errors =
      errors ++ [disk_low_message available min_free path] ∧
    (plan_space_check .enforce min_free
      (.ok { checked_path := path, available_bytes := available }) errors).space_meta.status =
      some "low" ∧
    (plan_space_check .warn min_free
      (.ok { checked_path := path, available_bytes := available }) errors).space_blocked = false ∧
    (plan_space_check .warn min_free
      (.ok { checked_path := path, available_bytes := available }) errors).errors = errors ∧
    (plan_space_check .warn min_free
      (.ok { checked_path := path, available_bytes := available }) errors).space_meta.warning =
      some (disk_low_message available min_free path) := by
  have hc : min_free > 0 ∧ available < min_free := ⟨hpos, hlow⟩
  unfold plan_space_check
  simp only [if_pos hc]
  exact ⟨trivial, trivial, trivial, trivial, trivial, trivial⟩

/-- C2 witness: the amended statement at the spec's example figures
(required 1000, available 900). -/
theorem claim_C2_witness :
    (0 < 1000 ∧ 900 < 1000) ∧
    ((plan_space_check .enforce 1000
      (.ok { checked_path := "/", available_bytes := 900 }) []).space_blocked = true ∧
    (plan_space_check .enforce 1000
      (.ok { checked_path := "/", available_bytes := 900 }) []).errors =
      [] ++ [disk_low_message 900 1000 "/"] ∧
    (plan_space_check .enforce 1000
      (.ok { checked_path := "/", available_bytes := 900 }) []).space_meta.status =
      some "low" ∧
    (plan_space_check .warn 1000
      (.ok { checked_path := "/", available_bytes := 900 }) []).space_blocked = false ∧
    (plan_space_check .warn 1000
      (.ok { checked_path := "/", available_bytes := 900 }) []).errors = [] ∧
    (plan_space_check .warn 1000
      (.ok { checked_path := "/", available_bytes := 900 }) []).space_meta.warning =
      some (disk_low_message 900 1000 "/")) :=
  ⟨⟨by decide, by decide⟩, claim_C2_amended 1000 900 "/" [] (by decide) (by decide)⟩

/-- C9: evidence for the code bug — truncate_hash is not total. On the
input of fifteen ASCII bytes followed by the two-byte character é, the
trimmed string is 17 bytes long, byte position 16 is not a character
boundary, and the Rust byte slice `&trimmed[..16]` panics (modelled as
none) instead of returning a string of at most 16 characters. -/
theorem claim_C9_truncation :
    truncate_hash "aaaaaaaaaaaaaaaé" = none ∧
    utf8Len (trimChars ("aaaaaaaaaaaaaaaé").data) = 17 := by decide

theorem assess_loop_all_ok (cs : List (String × Nat)) :
    ∀ cur : SpaceReport,
      ∃ r, assess_loop (some cur) (cs.map (fun pb => (pb.1, Except.ok pb.2))) = .ok (some r) ∧
        (r.available_bytes = cur.available_bytes ∨ r.available_bytes ∈ cs.map Prod.snd) ∧
        r.available_bytes ≤ cur.available_bytes ∧
        ∀ b ∈ cs.map Prod.snd, r.available_bytes ≤ b := by
  induction cs with
  | nil =>
    intro cur
    exact ⟨cur, rfl, Or.inl rfl, le_refl _, by simp⟩
  | cons pb rest ih =>
    intro cur
    by_cases hge : pb.2 ≥ cur.available_bytes
    · obtain ⟨r, hr, hmem, hle, hall⟩ := ih cur
      refine ⟨r, ?_, ?_, hle, ?_⟩
      · simp only [List.map_cons, assess_loop, if_pos hge]
        exact hr
      · rcases hmem with hm | hm
        · exact Or.inl hm
        · exact Or.inr (by simp [hm])
      · intro b hb
        rcases List.mem_cons.mp hb with hb | hb
        · exact hb ▸ le_trans hle hge
        · exact hall b hb
    · obtain ⟨r, hr, hmem, hle, hall⟩ :=
        ih { checked_path := pb.1, available_bytes := pb.2 }
      have hlt : pb.2 < cur.available_bytes := Nat.lt_of_not_le hge
      refine ⟨r, ?_, ?_, ?_, ?_⟩
      · simp only [List.map_cons, assess_loop, if_neg hge]
        exact hr
      · rcases hmem with hm | hm
        · exact Or.inr (by simp [hm])
        · exact Or.inr (by simp [hm])
      · rcases hmem with hm | hm
        · exact le_of_lt (hm ▸ hlt)
        · exact le_of_lt (lt_of_le_of_lt hle hlt)
      · intro b hb
        rcases List.mem_cons.mp hb with hb | hb
        · exact hb ▸ hle
        · exact hall b hb

/-- C6: the Disk Capacity Assessor keeps the first candidate and replaces
the held report only on strictly fewer available bytes, so over any
sequence of successfully queried candidates it returns the minimum value
encountered; in particular [500, 300, 800] yields 300 — not the first
value and not the maximum. -/
theorem claim_C6 :
    (assess_default_paths [("a", .ok 500), ("b", .ok 300), ("c", .ok 800)] =
      .ok { checked_path := "b", available_bytes := 300 }) ∧
    (∀ (p0 : String) (b0 : Nat) (rest : List (String × Nat)),
      ∃ r, assess_default_paths
          (((p0, b0) :: rest).map (fun pb => (pb.1, Except.ok pb.2))) = .ok r ∧
        r.available_bytes ∈ ((p0, b0) :: rest).map Prod.snd ∧
        ∀ b ∈ ((p0, b0) :: rest).map Prod.snd, r.available_bytes ≤ b) := by
  constructor
  · decide
  · intro p0 b0 rest
    obtain ⟨r, hr, hmem, hle, hall⟩ :=
      assess_loop_all_ok rest { checked_path := p0, available_bytes := b0 }
    refine ⟨r, ?_, ?_, ?_⟩
    · unfold assess_default_paths
      simp only [List.map_cons, assess_loop, hr]
    · rcases hmem with hm | hm
      · exact by simp [hm]
      · exact by simp [hm]
    · intro b hb
      rcases List.mem_cons.mp hb with hb | hb
      · exact hb ▸ hle
      · exact hall b hb

/-- C6 witness: the general clause applied to the two-candidate list
[("x", 500), ("y", 300)]. -/
theorem claim_C6_witness :
    ∃ r, assess_default_paths
        ((("x", 500) :: [("y", 300)]).map (fun pb => (pb.1, Except.ok pb.2))) = .ok r ∧
      r.available_bytes ∈ (("x", 500) :: [("y", 300)]).map Prod.snd ∧
      ∀ b ∈ (("x", 500) :: [("y", 300)]).map Prod.snd, r.available_bytes ≤ b :=
  claim_C6.2 "x" 500 [("y", 300)]

theorem collect_releases_ne {dev_id name installed : String} :
    ∀ (rels : List FwupdUpdateRelease) (us : List FwupdUpdate),
      collect_releases dev_id name installed rels = some us →
      ∀ u ∈ us, u.installed ≠ u.available := by
  intro rels
  induction rels with
  | nil =>
    intro us h u hu
    cases h
    cases hu
  | cons rel rest ih =>
    intro us h u hu
    simp only [collect_releases] at h
    split at h
    · exact ih us h u hu
    · rename_i hcond
      split at h
      · cases h
      · rename_i checksum hck
        split at h
        · cases h
        · rename_i tail htail
          cases h
          rcases List.mem_cons.mp hu with hu | hu
          · subst hu
            push_neg at hcond
            intro habs
            have habs2 : installed = rel.version.getD "" := habs
            by_cases hinst : installed = ""
            · exact hcond.1 (habs2.symm.trans hinst)
            · exact hcond.2 hinst habs2
          · exact ih tail htail u hu

theorem collect_devices_ne :
    ∀ (devs : List FwupdUpdateDevice) (us : List FwupdUpdate),
      collect_devices devs = some us → ∀ u ∈ us, u.installed ≠ u.available := by
  intro devs
  induction devs with
  | nil =>
    intro us h u hu
    cases h
    cases hu
  | cons dev rest ih =>
    intro us h u hu
    simp only [collect_devices] at h
    split at h
    · cases h
    · rename_i us1 h1
      split at h
      · cases h
      · rename_i tail h2
        cases h
        rcases List.mem_append.mp hu with hu | hu
        · exact collect_releases_ne _ us1 h1 u hu
        · exact ih tail h2 u hu

/-- C8: in firmware-source plan collection, a release whose version string
equals the device's installed version never appears in the update list,
whatever its other metadata; formally, every emitted update has
installed ≠ available, and an equal-version release can only be dropped. -/
theorem claim_C8 (parsed : FwupdUpdates) (out : List FwupdUpdate)
    (h : collect_fwupd_updates parsed = some out) :
    ∀ u ∈ out, u.installed ≠ u.available := by
  unfold collect_fwupd_updates at h
  exact collect_devices_ne _ out h

/-- C8 witness: a device at version 1.0 with one release at 1.0 (differing
summary/signing metadata) and one at 2.0 yields only the 2.0 update, to
which the theorem applies. -/
theorem claim_C8_witness :
    collect_fwupd_updates
      ⟨[⟨some "d1", none, some "Dev", some "1.0",
        some [⟨some "1.0", some "changed", none, some "ffff", none, none, none, none, some false⟩,
          ⟨some "2.0", none, none, some "dddd", none, none, none, none, some true⟩], none⟩], []⟩ =
      some [⟨"d1", "Dev", "1.0", "2.0", "", "dddd", "signed"⟩] ∧
    (FwupdUpdate.mk "d1" "Dev" "1.0" "2.0" "" "dddd" "signed").installed ≠
      (FwupdUpdate.mk "d1" "Dev" "1.0" "2.0" "" "dddd" "signed").available :=
  ⟨by decide,
    claim_C8
      ⟨[⟨some "d1", none, some "Dev", some "1.0",
        some [⟨some "1.0", some "changed", none, some "ffff", none, none, none, none, some false⟩,
          ⟨some "2.0", none, none, some "dddd", none, none, none, none, some true⟩], none⟩], []⟩
      [⟨"d1", "Dev", "1.0", "2.0", "", "dddd", "signed"⟩] (by decide)
      (FwupdUpdate.mk "d1" "Dev" "1.0" "2.0" "" "dddd" "signed") (by simp)⟩

theorem build_step_ok {vercmp : Oracle} {repo_versions aur_versions : String → Option VersionInfo}
    {st : BuildState} {p : InstalledPackage} {e : ManifestEntry}
    (h : resolve_package vercmp p (repo_versions p.name) (aur_versions p.name) = .ok e) :
    ∃ st1, build_step vercmp repo_versions aur_versions st p = .ok st1 ∧
      st1.entries = insertEntry p.name e st.entries := by
  unfold build_step
  simp only [h]
  refine ⟨_, rfl, ?_⟩
  split <;> rfl

theorem build_step_error {vercmp : Oracle} {repo_versions aur_versions : String → Option VersionInfo}
    {st : BuildState} {p : InstalledPackage} {msg : String}
    (h : resolve_package vercmp p (repo_versions p.name) (aur_versions p.name) = .error msg) :
    build_step vercmp repo_versions aur_versions st p = .error msg := by
  unfold build_step
  simp only [h]

theorem build_loop_cons (vercmp : Oracle) (repo_versions aur_versions : String → Option VersionInfo)
    (p : InstalledPackage) (ps : List InstalledPackage) (st : BuildState) :
    build_loop vercmp repo_versions aur_versions (p :: ps) st =
      match build_step vercmp repo_versions aur_versions st p with
      | .error e => .error e
      | .ok st1 => build_loop vercmp repo_versions aur_versions ps st1 := rfl

theorem build_loop_error (vercmp : Oracle) (repo_versions aur_versions : String → Option VersionInfo)
    (msg : String) :
    ∀ (pre : List InstalledPackage) (p : InstalledPackage) (post : List InstalledPackage)
      (st : BuildState),
      (∀ q ∈ pre, ∃ eq,
        resolve_package vercmp q (repo_versions q.name) (aur_versions q.name) = .ok eq) →
      resolve_package vercmp p (repo_versions p.name) (aur_versions p.name) = .error msg →
      build_loop vercmp repo_versions aur_versions (pre ++ p :: post) st = .error msg := by
  intro pre
  induction pre with
  | nil =>
    intro p post st _ hp
    simp only [List.nil_append, build_loop, build_step_error hp]
  | cons q rest ih =>
    intro p post st hpre hp
    obtain ⟨eq, heq⟩ := hpre q (List.mem_cons_self q rest)
    obtain ⟨st1, hst1, _⟩ := build_step_ok heq
    rw [List.cons_append, build_loop_cons, hst1]
    exact ih p post st1 (fun r hr => hpre r (List.mem_cons_of_mem q hr)) hp

/-- C1 counterexample: a Version Oracle failure on the first package's
malformed version "bad" makes the whole manifest build return that error —
no per-package Unknown entry is produced and the remaining package "zzz"
is not processed, so manifest building does not continue. -/
theorem claim_C1_counterexample :
    build_manifest failing_oracle
      [mkPkg "aaa" "bad", mkPkg "zzz" "1"]
      (fun n => if n = "aaa" ∨ n = "zzz" then some (mkInfo "22" (some 5) (some 7)) else none)
      (fun _ => none) 0 "2024-11-04T00:00:00Z" = .error "vercmp failure" := by decide

/-- C1 amended: a Version Oracle failure during reconciliation of one
package is propagated by resolve_package and aborts the entire
build_manifest run with that error (after any error-free packages before
it); there is no per-package recovery and no Unknown-source fallback
entry. -/
theorem claim_C1_amended (vercmp : Oracle) (repo_versions aur_versions : String → Option VersionInfo)
    (mf : Nat) (now : String) (pre : List InstalledPackage) (p : InstalledPackage)
    (post : List InstalledPackage) (msg : String)
    (hpre : ∀ q ∈ pre, ∃ eq,
      resolve_package vercmp q (repo_versions q.name) (aur_versions q.name) = .ok eq)
    (hp : resolve_package vercmp p (repo_versions p.name) (aur_versions p.name) = .error msg) :
    build_manifest vercmp (pre ++ p :: post) repo_versions aur_versions mf now = .error msg := by
  unfold build_manifest
  rw [build_loop_error vercmp repo_versions aur_versions msg pre p post emptyBuildState hpre hp]

/-- C1 witness: the amended statement with one healthy package before the
failing one. -/
theorem claim_C1_witness :
    build_manifest failing_oracle ([mkPkg "aaa" "1"] ++ mkPkg "zzz" "bad" :: [])
      (fun n => if n = "aaa" ∨ n = "zzz" then some (mkInfo "22" (some 5) (some 7)) else none)
      (fun _ => none) 0 "2024-11-04T00:00:00Z" = .error "vercmp failure" :=
  claim_C1_amended failing_oracle
    (fun n => if n = "aaa" ∨ n = "zzz" then some (mkInfo "22" (some 5) (some 7)) else none)
    (fun _ => none) 0 "2024-11-04T00:00:00Z" [mkPkg "aaa" "1"] (mkPkg "zzz" "bad") [] "vercmp failure"
    (by
      intro q hq
      rw [List.mem_singleton] at hq
      subst hq
      exact ⟨_, rfl⟩)
    (by decide)

theorem optCmp_total {vercmp : Oracle} (h : OracleTotal vercmp) (v : String)
    (oi : Option VersionInfo) : ∃ rc, optCmp vercmp v oi = .ok rc := by
  cases oi with
  | none => exact ⟨none, rfl⟩
  | some info =>
    obtain ⟨o, ho⟩ := h v info.version
    exact ⟨some o, by unfold optCmp; simp only [ho]⟩

theorem classify_total {vercmp : Oracle} (h : OracleTotal vercmp) (p : InstalledPackage)
    (ri : Option VersionInfo) (rc : Option Ordering) (ai : Option VersionInfo)
    (ac : Option Ordering) :
    ∃ stun, classify vercmp p ri rc ai ac = .ok stun := by
  rcases ri with _ | rv <;> rcases rc with _ | rco <;> rcases ai with _ | av <;>
    rcases ac with _ | aco
  case some.some.some.some =>
    obtain ⟨o3, ho3⟩ := h rv.version av.version
    cases o3
    · exact ⟨_, by simp only [classify, ho3]; rfl⟩
    · exact ⟨_, by simp only [classify, ho3]; rfl⟩
    · exact ⟨_, by simp only [classify, ho3]; rfl⟩
  all_goals exact ⟨_, rfl⟩

theorem resolve_package_total {vercmp : Oracle} (h : OracleTotal vercmp)
    (p : InstalledPackage) (ri ai : Option VersionInfo) :
    ∃ e, resolve_package vercmp p ri ai = .ok e := by
  obtain ⟨rc, hrc⟩ := optCmp_total h p.version ri
  obtain ⟨ac, hac⟩ := optCmp_total h p.version ai
  obtain ⟨stun, hstun⟩ := classify_total h p ri rc ai ac
  exact ⟨_, resolve_package_eq_ok hrc hac hstun⟩

theorem resolve_or_default_eq {vercmp : Oracle} {repo_versions aur_versions : String → Option VersionInfo}
    {p : InstalledPackage} {e : ManifestEntry}
    (h : resolve_package vercmp p (repo_versions p.name) (aur_versions p.name) = .ok e) :
    resolve_or_default vercmp repo_versions aur_versions p = e := by
  unfold resolve_or_default
  rw [h]

theorem build_step_ok_elim {vercmp : Oracle} {repo_versions aur_versions : String → Option VersionInfo}
    {st : BuildState} {p : InstalledPackage} {st1 : BuildState}
    (h : build_step vercmp repo_versions aur_versions st p = .ok st1) :
    ∃ e, resolve_package vercmp p (repo_versions p.name) (aur_versions p.name) = .ok e ∧
      st1.entries = insertEntry p.name e st.entries := by
  simp only [build_step] at h
  split at h
  · cases h
  · rename_i e he
    cases h
    refine ⟨e, he, ?_⟩
    split <;> rfl

theorem build_loop_entries {vercmp : Oracle} (h : OracleTotal vercmp)
    (repo_versions aur_versions : String → Option VersionInfo) :
    ∀ (ps : List InstalledPackage) (st : BuildState),
      ∃ st1, build_loop vercmp repo_versions aur_versions ps st = .ok st1 ∧
        st1.entries = build_entries_pure vercmp repo_versions aur_versions ps st.entries := by
  intro ps
  induction ps with
  | nil => intro st; exact ⟨st, rfl, rfl⟩
  | cons p rest ih =>
    intro st
    obtain ⟨e, he⟩ := resolve_package_total h p (repo_versions p.name) (aur_versions p.name)
    obtain ⟨st1, hst1, hent⟩ := build_step_ok he
    obtain ⟨st2, hst2, hent2⟩ := ih st1
    refine ⟨st2, ?_, ?_⟩
    · rw [build_loop_cons, hst1]
      exact hst2
    · have hview : build_entries_pure vercmp repo_versions aur_versions (p :: rest) st.entries =
          build_entries_pure vercmp repo_versions aur_versions rest
            (insertEntry p.name e st.entries) := by
        show build_entries_pure vercmp repo_versions aur_versions rest
            (insertEntry p.name (resolve_or_default vercmp repo_versions aur_versions p) st.entries) = _
        rw [resolve_or_default_eq he]
      rw [hview, hent2, hent]

theorem insertEntry_mem (k : String) (v : ManifestEntry) :
    ∀ (l : List (String × ManifestEntry)) (x : String × ManifestEntry),
      x ∈ insertEntry k v l → x = (k, v) ∨ x ∈ l := by
  intro l
  induction l with
  | nil =>
    intro x hx
    rcases List.mem_cons.mp hx with h | h
    · exact Or.inl h
    · cases h
  | cons hd tl ih =>
    obtain ⟨k0, v0⟩ := hd
    intro x hx
    unfold insertEntry at hx
    split at hx
    · rcases List.mem_cons.mp hx with h | h
      · exact Or.inl h
      · exact Or.inr h
    · split at hx
      · rcases List.mem_cons.mp hx with h | h
        · exact Or.inl h
        · exact Or.inr (List.mem_cons_of_mem (k0, v0) h)
      · rcases List.mem_cons.mp hx with h | h
        · exact Or.inr (h ▸ List.mem_cons_self (k0, v0) tl)
        · rcases ih x h with h2 | h2
          · exact Or.inl h2
          · exact Or.inr (List.mem_cons_of_mem (k0, v0) h2)

theorem insertEntry_sorted (k : String) (v : ManifestEntry) :
    ∀ (l : List (String × ManifestEntry)), l.Pairwise entryKeyLt →
      (insertEntry k v l).Pairwise entryKeyLt := by
  intro l
  induction l with
  | nil => intro _; exact List.pairwise_singleton _ _
  | cons hd tl ih =>
    obtain ⟨k0, v0⟩ := hd
    intro hp
    rw [List.pairwise_cons] at hp
    obtain ⟨hhd, htl⟩ := hp
    unfold insertEntry
    split
    · rename_i hlt
      refine List.Pairwise.cons ?_ (List.Pairwise.cons hhd htl)
      intro x hx
      rcases List.mem_cons.mp hx with h | h
      · subst h; exact hlt
      · exact lt_trans hlt (hhd x h)
    · split
      · rename_i hnlt heq
        subst heq
        exact List.Pairwise.cons (fun x hx => hhd x hx) htl
      · rename_i hnlt hne
        have hgt : entryKeyLt (k0, v0) (k, v) := by
          rcases lt_trichotomy k k0 with h | h | h
          · exact absurd h hnlt
          · exact absurd h hne
          · exact h
        refine List.Pairwise.cons ?_ (ih htl)
        intro x hx
        rcases insertEntry_mem k v tl x hx with h | h
        · subst h; exact hgt
        · exact hhd x h

theorem insertEntry_perm (k : String) (v : ManifestEntry) :
    ∀ (l : List (String × ManifestEntry)), k ∉ l.map Prod.fst →
      (insertEntry k v l).Perm ((k, v) :: l) := by
  intro l
  induction l with
  | nil => intro _; exact List.Perm.refl _
  | cons hd tl ih =>
    obtain ⟨k0, v0⟩ := hd
    intro hk
    rw [List.map_cons, List.mem_cons] at hk
    push_neg at hk
    unfold insertEntry
    split
    · exact List.Perm.refl _
    · split
      · rename_i heq
        exact absurd heq hk.1
      · refine List.Perm.trans (List.Perm.cons (k0, v0) (ih hk.2)) ?_
        exact List.Perm.swap (k, v) (k0, v0) tl

theorem insertEntry_keys (k : String) (v : ManifestEntry) (l : List (String × ManifestEntry))
    (x : String) (hx : x ∈ (insertEntry k v l).map Prod.fst) :
    x = k ∨ x ∈ l.map Prod.fst := by
  rw [List.mem_map] at hx
  obtain ⟨a, ha, hax⟩ := hx
  rcases insertEntry_mem k v l a ha with h | h
  · exact Or.inl (by rw [← hax, h])
  · exact Or.inr (hax ▸ List.mem_map_of_mem Prod.fst h)

theorem build_entries_pure_sorted (vercmp : Oracle)
    (repo_versions aur_versions : String → Option VersionInfo) :
    ∀ (ps : List InstalledPackage) (es : List (String × ManifestEntry)),
      es.Pairwise entryKeyLt →
      (build_entries_pure vercmp repo_versions aur_versions ps es).Pairwise entryKeyLt := by
  intro ps
  induction ps with
  | nil => intro es h; exact h
  | cons p rest ih =>
    intro es h
    exact ih _ (insertEntry_sorted _ _ es h)

theorem build_entries_pure_perm (vercmp : Oracle)
    (repo_versions aur_versions : String → Option VersionInfo) :
    ∀ (ps : List InstalledPackage) (es : List (String × ManifestEntry)),
      (ps.map InstalledPackage.name).Nodup →
      (∀ p ∈ ps, p.name ∉ es.map Prod.fst) →
      (build_entries_pure vercmp repo_versions aur_versions ps es).Perm
        ((ps.map (entry_pair vercmp repo_versions aur_versions)) ++ es) := by
  intro ps
  induction ps with
  | nil => intro es _ _; exact List.Perm.refl _
  | cons p rest ih =>
    intro es hnd hdisj
    rw [List.map_cons, List.nodup_cons] at hnd
    have hpe : p.name ∉ es.map Prod.fst := hdisj p (List.mem_cons_self p rest)
    have hdisj2 : ∀ q ∈ rest, q.name ∉
        (insertEntry p.name (resolve_or_default vercmp repo_versions aur_versions p) es).map
          Prod.fst := by
      intro q hq hmem
      rcases insertEntry_keys _ _ _ _ hmem with h | h
      · exact hnd.1 (h ▸ List.mem_map_of_mem InstalledPackage.name hq)
      · exact hdisj q (List.mem_cons_of_mem p hq) h
    have step := ih (insertEntry p.name (resolve_or_default vercmp repo_versions aur_versions p) es)
      hnd.2 hdisj2
    refine List.Perm.trans step ?_
    have hins : (insertEntry p.name (resolve_or_default vercmp repo_versions aur_versions p)
        es).Perm ((p.name, resolve_or_default vercmp repo_versions aur_versions p) :: es) :=
      insertEntry_perm _ _ es hpe
    refine List.Perm.trans (List.Perm.append_left _ hins) ?_
    exact List.perm_middle

instance : IsAntisymm (String × ManifestEntry) entryKeyLt :=
  ⟨fun _ _ h1 h2 => absurd h2 (lt_asymm h1)⟩

theorem build_loop_sorted (vercmp : Oracle)
    (repo_versions aur_versions : String → Option VersionInfo) :
    ∀ (ps : List InstalledPackage) (st st1 : BuildState),
      build_loop vercmp repo_versions aur_versions ps st = .ok st1 →
      st.entries.Pairwise entryKeyLt → st1.entries.Pairwise entryKeyLt := by
  intro ps
  induction ps with
  | nil =>
    intro st st1 h hp
    cases h
    exact hp
  | cons p rest ih =>
    intro st st1 h hp
    rw [build_loop_cons] at h
    split at h
    · cases h
    · rename_i st2 hst2
      obtain ⟨e, _, hent⟩ := build_step_ok_elim hst2
      exact ih st2 st1 h (hent ▸ insertEntry_sorted _ _ _ hp)

/-- C7: on identical inputs two manifest builds agree on everything except
the generation timestamp; every successfully built packages map is in
strict lexicographic key order; and for duplicate-free package names the
packages map is invariant under permuting the input inventory (insertion
order is irrelevant). -/
theorem claim_C7 (vercmp : Oracle) (repo_versions aur_versions : String → Option VersionInfo)
    (mf : Nat) (packages packages2 : List InstalledPackage)
    (htotal : OracleTotal vercmp)
    (hnodup : (packages.map InstalledPackage.name).Nodup)
    (hperm : packages.Perm packages2) :
    (∀ now now2,
      (build_manifest vercmp packages repo_versions aur_versions mf now).map strip_timestamp =
      (build_manifest vercmp packages repo_versions aur_versions mf now2).map strip_timestamp) ∧
    (∀ now doc, build_manifest vercmp packages repo_versions aur_versions mf now = .ok doc →
      doc.packages.Pairwise entryKeyLt) ∧
    (∀ now,
      (build_manifest vercmp packages repo_versions aur_versions mf now).map
        ManifestDocument.packages =
      (build_manifest vercmp packages2 repo_versions aur_versions mf now).map
        ManifestDocument.packages) := by
  refine ⟨?_, ?_, ?_⟩
  · intro now now2
    unfold build_manifest
    cases build_loop vercmp repo_versions aur_versions packages emptyBuildState <;> rfl
  · intro now doc hdoc
    unfold build_manifest at hdoc
    split at hdoc
    · cases hdoc
    · rename_i st hst
      cases hdoc
      exact build_loop_sorted vercmp repo_versions aur_versions packages emptyBuildState st hst
        List.Pairwise.nil
  · intro now
    obtain ⟨st1, hst1, hent1⟩ :=
      build_loop_entries htotal repo_versions aur_versions packages emptyBuildState
    obtain ⟨st2, hst2, hent2⟩ :=
      build_loop_entries htotal repo_versions aur_versions packages2 emptyBuildState
    have hnodup2 : (packages2.map InstalledPackage.name).Nodup :=
      (hperm.map InstalledPackage.name).nodup_iff.mp hnodup
    have hperm1 : st1.entries.Perm
        (packages.map (entry_pair vercmp repo_versions aur_versions)) := by
      rw [hent1]
      have := build_entries_pure_perm vercmp repo_versions aur_versions packages []
        hnodup (by simp)
      rwa [List.append_nil] at this
    have hperm2 : st2.entries.Perm
        (packages2.map (entry_pair vercmp repo_versions aur_versions)) := by
      rw [hent2]
      have := build_entries_pure_perm vercmp repo_versions aur_versions packages2 []
        hnodup2 (by simp)
      rwa [List.append_nil] at this
    have hs1 : st1.entries.Pairwise entryKeyLt :=
      build_loop_sorted vercmp repo_versions aur_versions packages emptyBuildState st1 hst1
        List.Pairwise.nil
    have hs2 : st2.entries.Pairwise entryKeyLt :=
      build_loop_sorted vercmp repo_versions aur_versions packages2 emptyBuildState st2 hst2
        List.Pairwise.nil
    have hmapperm : (packages.map (entry_pair vercmp repo_versions aur_versions)).Perm
        (packages2.map (entry_pair vercmp repo_versions aur_versions)) :=
      hperm.map (entry_pair vercmp repo_versions aur_versions)
    have hee : st1.entries = st2.entries :=
      List.eq_of_perm_of_sorted (hperm1.trans (hmapperm.trans hperm2.symm)) hs1 hs2
    unfold build_manifest
    rw [hst1, hst2]
    simp only [Except.map]
    rw [hee]

/-- C7 witness: the permutation-invariance clause applied to two concrete
two-package inventories given in opposite orders. -/
theorem claim_C7_witness :
    (build_manifest length_oracle [mkPkg "b" "1", mkPkg "a" "22"]
      (fun _ => none) (fun _ => none) 0 "t1").map ManifestDocument.packages =
    (build_manifest length_oracle [mkPkg "a" "22", mkPkg "b" "1"]
      (fun _ => none) (fun _ => none) 0 "t1").map ManifestDocument.packages :=
  (claim_C7 length_oracle (fun _ => none) (fun _ => none) 0
    [mkPkg "b" "1", mkPkg "a" "22"] [mkPkg "a" "22", mkPkg "b" "1"]
    (fun a b => ⟨compare a.length b.length, rfl⟩)
    (by decide)
    (List.Perm.swap (mkPkg "a" "22") (mkPkg "b" "1") [])).2.2 "t1"

theorem satAdd_le (a b : Nat) : satAdd a b ≤ U64_MAX := Nat.min_le_right _ _

theorem satMul_le (a b : Nat) : satMul a b ≤ U64_MAX := Nat.min_le_right _ _

theorem obnd_none : obnd none := fun _ hx => by cases hx

theorem obnd_optOr {a b : Option Nat} (ha : obnd a) (hb : obnd b) : obnd (optOr a b) := by
  cases a with
  | some x => exact ha
  | none => exact hb

theorem selected_sizes_obnd (s : PackageSource) {dr ir da ia : Option Nat}
    (h1 : obnd dr) (h2 : obnd ir) (h3 : obnd da) (h4 : obnd ia) :
    obnd (selected_sizes s dr ir da ia).1 ∧ obnd (selected_sizes s dr ir da ia).2 := by
  cases s
  · exact ⟨h1, h2⟩
  · exact ⟨h3, h4⟩
  · exact ⟨obnd_none, obnd_none⟩
  · exact ⟨obnd_optOr h1 h3, obnd_optOr h2 h4⟩

theorem install_estimate_obnd {isel dsel : Option Nat} (s : PackageSource)
    (h1 : obnd isel) (h2 : obnd dsel) : obnd (install_estimate_of isel dsel s) := by
  intro x hx
  rcases isel with _ | iv
  · rcases dsel with _ | dv
    · cases s <;> cases hx
    · cases s
      · cases hx; exact h2 _ rfl
      · cases hx; exact satMul_le dv 2
      · cases hx; exact h2 _ rfl
      · cases hx; exact h2 _ rfl
  · cases hx
    exact h1 _ rfl

theorem build_estimate_obnd (s : PackageSource) {inst dsel : Option Nat}
    (h1 : obnd inst) : obnd (build_estimate_of s inst dsel) := by
  intro x hx
  cases s
  · rcases inst with _ | iv
    · rcases dsel with _ | dv <;> cases hx
    · cases hx
      have h := satMul_le iv 3
      omega
  · rcases inst with _ | iv <;> rcases dsel with _ | dv
    · cases hx
    · cases hx; exact satMul_le dv 8
    · cases hx
    · cases hx; exact satMul_le dv 8
  · rcases inst with _ | iv <;> rcases dsel with _ | dv <;> cases hx
  · rcases inst with _ | iv <;> rcases dsel with _ | dv <;> cases hx

theorem transient_estimate_obnd (dsel bld inst : Option Nat) :
    obnd (transient_estimate_of dsel bld inst) := by
  intro x hx
  simp only [transient_estimate_of] at hx
  split at hx
  · cases hx
  · cases hx
    exact satAdd_le _ _

theorem transient_estimate_clamp (dsel bld inst : Option Nat) :
    transient_estimate_of dsel bld inst = none ∨
    transient_estimate_of dsel bld inst =
      some (min (dsel.getD 0 + bld.getD 0 + inst.getD 0) U64_MAX) := by
  simp only [transient_estimate_of]
  split
  · exact Or.inl rfl
  · right
    congr 1
    unfold satAdd
    omega

theorem mk_entry_obnd (p : InstalledPackage) (ri ai : Option VersionInfo)
    (stun : PackageSource × String × Bool × Option String)
    (h1 : obnd (ri.bind VersionInfo.download_size))
    (h2 : obnd (ri.bind VersionInfo.installed_size))
    (h3 : obnd (ai.bind VersionInfo.download_size))
    (h4 : obnd (ai.bind VersionInfo.installed_size)) :
    obnd (mk_entry p ri ai stun).install_size_estimate ∧
    obnd (mk_entry p ri ai stun).build_size_estimate ∧
    obnd (mk_entry p ri ai stun).transient_size_estimate := by
  obtain ⟨hs1, hs2⟩ := selected_sizes_obnd stun.1 h1 h2 h3 h4
  have hinst : obnd (mk_entry p ri ai stun).install_size_estimate := by
    rw [mk_entry_install]
    exact install_estimate_obnd stun.1 hs2 hs1
  refine ⟨hinst, ?_, ?_⟩
  · rw [mk_entry_build]
    exact build_estimate_obnd stun.1 hinst
  · rw [mk_entry_transient]
    exact transient_estimate_obnd _ _ _

theorem addSized_eq (total : Nat) (o : Option Nat) (h : total ≤ U64_MAX) :
    addSized total o = min (total + o.getD 0) U64_MAX := by
  cases o with
  | none =>
    show total = min (total + 0) U64_MAX
    omega
  | some s => rfl

theorem build_step_totals {vercmp : Oracle}
    {repo_versions aur_versions : String → Option VersionInfo}
    {st : BuildState} {p : InstalledPackage} {st1 : BuildState}
    (h : build_step vercmp repo_versions aur_versions st p = .ok st1)
    (hd : st.download_total ≤ U64_MAX) (hb : st.build_total ≤ U64_MAX)
    (hi : st.install_total ≤ U64_MAX) (ht : st.transient_total ≤ U64_MAX) :
    st1.download_total = min (st.download_total + update_contrib vercmp repo_versions aur_versions
      ManifestEntry.download_size_selected p) U64_MAX ∧
    st1.build_total = min (st.build_total + update_contrib vercmp repo_versions aur_versions
      ManifestEntry.build_size_estimate p) U64_MAX ∧
    st1.install_total = min (st.install_total + update_contrib vercmp repo_versions aur_versions
      ManifestEntry.install_size_estimate p) U64_MAX ∧
    st1.transient_total = min (st.transient_total + update_contrib vercmp repo_versions aur_versions
      ManifestEntry.transient_size_estimate p) U64_MAX := by
  simp only [build_step] at h
  split at h
  · cases h
  · rename_i resolved he
    have hrd := resolve_or_default_eq he
    cases h
    simp only [update_contrib]
    rw [hrd]
    split
    · exact ⟨addSized_eq _ _ hd, addSized_eq _ _ hb, addSized_eq _ _ hi, addSized_eq _ _ ht⟩
    · refine ⟨?_, ?_, ?_, ?_⟩
      · show st.download_total = min (st.download_total + 0) U64_MAX
        omega
      · show st.build_total = min (st.build_total + 0) U64_MAX
        omega
      · show st.install_total = min (st.install_total + 0) U64_MAX
        omega
      · show st.transient_total = min (st.transient_total + 0) U64_MAX
        omega

theorem build_loop_totals (vercmp : Oracle)
    (repo_versions aur_versions : String → Option VersionInfo) :
    ∀ (ps : List InstalledPackage) (st st1 : BuildState),
      build_loop vercmp repo_versions aur_versions ps st = .ok st1 →
      st.download_total ≤ U64_MAX → st.build_total ≤ U64_MAX →
      st.install_total ≤ U64_MAX → st.transient_total ≤ U64_MAX →
      st1.download_total = min (st.download_total + (ps.map (update_contrib vercmp repo_versions
        aur_versions ManifestEntry.download_size_selected)).sum) U64_MAX ∧
      st1.build_total = min (st.build_total + (ps.map (update_contrib vercmp repo_versions
        aur_versions ManifestEntry.build_size_estimate)).sum) U64_MAX ∧
      st1.install_total = min (st.install_total + (ps.map (update_contrib vercmp repo_versions
        aur_versions ManifestEntry.install_size_estimate)).sum) U64_MAX ∧
      st1.transient_total = min (st.transient_total + (ps.map (update_contrib vercmp repo_versions
        aur_versions ManifestEntry.transient_size_estimate)).sum) U64_MAX := by
  intro ps
  induction ps with
  | nil =>
    intro st st1 h hd hb hi ht
    cases h
    refine ⟨?_, ?_, ?_, ?_⟩ <;> simp only [List.map_nil, List.sum_nil] <;> omega
  | cons p rest ih =>
    intro st st1 h hd hb hi ht
    rw [build_loop_cons] at h
    split at h
    · cases h
    · rename_i st2 hst2
      obtain ⟨d1, b1, i1, t1⟩ := build_step_totals hst2 hd hb hi ht
      have hd2 : st2.download_total ≤ U64_MAX := by rw [d1]; omega
      have hb2 : st2.build_total ≤ U64_MAX := by rw [b1]; omega
      have hi2 : st2.install_total ≤ U64_MAX := by rw [i1]; omega
      have ht2 : st2.transient_total ≤ U64_MAX := by rw [t1]; omega
      obtain ⟨D, B, I, T⟩ := ih st2 st1 h hd2 hb2 hi2 ht2
      refine ⟨?_, ?_, ?_, ?_⟩
      · rw [D, d1, List.map_cons, List.sum_cons]; omega
      · rw [B, b1, List.map_cons, List.sum_cons]; omega
      · rw [I, i1, List.map_cons, List.sum_cons]; omega
      · rw [T, t1, List.map_cons, List.sum_cons]; omega

/-- C10 counterexample: for a repository package whose known installed size
is u64::MAX, the Pacman build estimate is computed as
ceil(saturating(3 × install) / 2) = 2^63 — the intermediate triple
saturates before the halving, so the estimate does not clamp at u64::MAX
(the clamped ideal ceil(1.5 × install) would be u64::MAX). -/
theorem claim_C10_counterexample :
    (resolve_package length_oracle (mkPkg "pkg" "1")
        (some (mkInfo "22" none (some U64_MAX))) none).map
      (fun e => e.build_size_estimate) = .ok (some (2 ^ 63)) ∧
    min (3 * U64_MAX / 2 + 3 * U64_MAX % 2) U64_MAX = U64_MAX ∧
    2 ^ 63 ≠ U64_MAX := by decide

/-- C10 amended: all size-estimate and rollup-total arithmetic in manifest
building is saturating u64 arithmetic — no estimate or total ever exceeds
u64::MAX, wraps, or panics, for any input sizes that fit in a u64; the
transient estimate and all four rollup totals equal their mathematical
values clamped at u64::MAX; the Pacman build estimate, however, saturates
the intermediate 3 × install product before the halving, so when that
product overflows the estimate is 2^63 rather than the u64::MAX clamp of
the ideal value. -/
theorem claim_C10_amended :
    (∀ (vercmp : Oracle) (p : InstalledPackage) (ri ai : Option VersionInfo) (e : ManifestEntry),
      resolve_package vercmp p ri ai = .ok e →
      obnd (ri.bind VersionInfo.download_size) →
      obnd (ri.bind VersionInfo.installed_size) →
      obnd (ai.bind VersionInfo.download_size) →
      obnd (ai.bind VersionInfo.installed_size) →
      obnd e.install_size_estimate ∧ obnd e.build_size_estimate ∧
      obnd e.transient_size_estimate ∧
      (e.transient_size_estimate = none ∨ e.transient_size_estimate =
        some (min (e.download_size_selected.getD 0 + e.build_size_estimate.getD 0 +
          e.install_size_estimate.getD 0) U64_MAX))) ∧
    (∀ (vercmp : Oracle) (repo_versions aur_versions : String → Option VersionInfo)
      (packages : List InstalledPackage) (mf : Nat) (now : String) (doc : ManifestDocument),
      build_manifest vercmp packages repo_versions aur_versions mf now = .ok doc →
      doc.metadata.download_size_total = min ((packages.map (update_contrib vercmp repo_versions
        aur_versions ManifestEntry.download_size_selected)).sum) U64_MAX ∧
      doc.metadata.build_size_total = min ((packages.map (update_contrib vercmp repo_versions
        aur_versions ManifestEntry.build_size_estimate)).sum) U64_MAX ∧
      doc.metadata.install_size_total = min ((packages.map (update_contrib vercmp repo_versions
        aur_versions ManifestEntry.install_size_estimate)).sum) U64_MAX ∧
      doc.metadata.transient_size_total = min ((packages.map (update_contrib vercmp repo_versions
        aur_versions ManifestEntry.transient_size_estimate)).sum) U64_MAX ∧
      doc.metadata.download_size_total ≤ U64_MAX ∧
      doc.metadata.build_size_total ≤ U64_MAX ∧
      doc.metadata.install_size_total ≤ U64_MAX ∧
      doc.metadata.transient_size_total ≤ U64_MAX) := by
  constructor
  · intro vercmp p ri ai e h h1 h2 h3 h4
    obtain ⟨rc, ac, stun, hc1, hc2, hc3, he⟩ := resolve_package_ok_elim h
    subst he
    obtain ⟨hinst, hbuild, htrans⟩ := mk_entry_obnd p ri ai stun h1 h2 h3 h4
    refine ⟨hinst, hbuild, htrans, ?_⟩
    rw [mk_entry_transient]
    exact transient_estimate_clamp _ _ _
  · intro vercmp repo_versions aur_versions packages mf now doc h
    unfold build_manifest at h
    split at h
    · cases h
    · rename_i st hst
      cases h
      obtain ⟨D, B, I, T⟩ := build_loop_totals vercmp repo_versions aur_versions packages
        emptyBuildState st hst (Nat.zero_le _) (Nat.zero_le _) (Nat.zero_le _) (Nat.zero_le _)
      have hD : st.download_total =
          min ((packages.map (update_contrib vercmp repo_versions aur_versions
            ManifestEntry.download_size_selected)).sum) U64_MAX := by rw [D]; simp [emptyBuildState]
      have hB : st.build_total =
          min ((packages.map (update_contrib vercmp repo_versions aur_versions
            ManifestEntry.build_size_estimate)).sum) U64_MAX := by rw [B]; simp [emptyBuildState]
      have hI : st.install_total =
          min ((packages.map (update_contrib vercmp repo_versions aur_versions
            ManifestEntry.install_size_estimate)).sum) U64_MAX := by rw [I]; simp [emptyBuildState]
      have hT : st.transient_total =
          min ((packages.map (update_contrib vercmp repo_versions aur_versions
            ManifestEntry.transient_size_estimate)).sum) U64_MAX := by rw [T]; simp [emptyBuildState]
      refine ⟨hD, hB, hI, hT, ?_, ?_, ?_, ?_⟩
      · show st.download_total ≤ U64_MAX
        rw [hD]; omega
      · show st.build_total ≤ U64_MAX
        rw [hB]; omega
      · show st.install_total ≤ U64_MAX
        rw [hI]; omega
      · show st.transient_total ≤ U64_MAX
        rw [hT]; omega

/-- C10 witness: the per-entry clause of the amended statement at a
concrete repository-only package with download 5 and installed 7. -/
theorem claim_C10_witness :
    obnd (mk_entry (mkPkg "pkg" "1") (some (mkInfo "22" (some 5) (some 7))) none
      (.pacman, "22", true, none)).install_size_estimate ∧
    obnd (mk_entry (mkPkg "pkg" "1") (some (mkInfo "22" (some 5) (some 7))) none
      (.pacman, "22", true, none)).build_size_estimate ∧
    obnd (mk_entry (mkPkg "pkg" "1") (some (mkInfo "22" (some 5) (some 7))) none
      (.pacman, "22", true, none)).transient_size_estimate ∧
    ((mk_entry (mkPkg "pkg" "1") (some (mkInfo "22" (some 5) (some 7))) none
      (.pacman, "22", true, none)).transient_size_estimate = none ∨
     (mk_entry (mkPkg "pkg" "1") (some (mkInfo "22" (some 5) (some 7))) none
      (.pacman, "22", true, none)).transient_size_estimate =
      some (min ((mk_entry (mkPkg "pkg" "1") (some (mkInfo "22" (some 5) (some 7))) none
          (.pacman, "22", true, none)).download_size_selected.getD 0 +
        (mk_entry (mkPkg "pkg" "1") (some (mkInfo "22" (some 5) (some 7))) none
          (.pacman, "22", true, none)).build_size_estimate.getD 0 +
        (mk_entry (mkPkg "pkg" "1") (some (mkInfo "22" (some 5) (some 7))) none
          (.pacman, "22", true, none)).install_size_estimate.getD 0) U64_MAX)) :=
  claim_C10_amended.1 length_oracle (mkPkg "pkg" "1") (some (mkInfo "22" (some 5) (some 7))) none
    (mk_entry (mkPkg "pkg" "1") (some (mkInfo "22" (some 5) (some 7))) none
      (.pacman, "22", true, none))
    (by decide)
    (fun x hx => by cases hx; decide)
    (fun x hx => by cases hx; decide)
    (fun x hx => by cases hx)
    (fun x hx => by cases hx)

end SynSyu
